import Mathlib

/-!
Verification of the spendify-backend derived-aggregate consistency engine and
insight rule engine, shallowly embedded from the JavaScript sources
(transaction controller, budget controller, ai controller, alert service).
Monetary amounts are modelled as rationals; calendar dates at day granularity
as (year, month, day) triples, matching the controllers which bucket by the
month string YYYY-MM derived from getFullYear and getMonth.
-/

namespace Spendify

/-- Transaction type enum from the Transaction schema: income or expense. -/
inductive TxType where
  | income : TxType
  | expense : TxType
deriving DecidableEq, Repr

/-- A calendar date at day granularity, standing for the JS Date objects the
controllers only ever inspect through getFullYear, getMonth and day position
within the month. -/
structure YMDate where
  year : Int
  month : Nat
  day : Nat
deriving DecidableEq, Repr

/-- A month key. The source uses the string YYYY-MM built from
getFullYear and zero-padded getMonth plus one; equality of those strings is
equality of the (year, month) pair. -/
abbrev Month := Int × Nat

/-- month key derived from a transaction date, as in the controllers:
backtick-free rendering of the YYYY-MM template literal. -/
def monthOf (d : YMDate) : Month := (d.year, d.month)

/-- Transaction record, from models/Transaction.js (user, type, category,
amount, date, optional note and mood). The schema validates amount > 0. -/
structure Txn where
  id : Nat
  user : Nat
  type : TxType
  category : String
  amount : ℚ
  date : YMDate
  note : Option String
  mood : Option String
deriving DecidableEq, Repr

/-- Budget Aggregate record, from the Budget schema (user, month string,
monthlyBudget with a v > 0 validator, spentSoFar defaulting to 0); the schema
declares a unique compound index on (user, month). -/
structure Budget where
  user : Nat
  month : Month
  monthlyBudget : ℚ
  spentSoFar : ℚ
deriving DecidableEq, Repr

/-- The document store state the transaction and budget controllers touch:
the transaction ledger and the budget collection, plus a fresh-id counter
standing for ObjectId generation. -/
structure St where
  txns : List Txn
  budgets : List Budget
  nextId : Nat
deriving DecidableEq, Repr

/-- Error outcomes of a controller call: ApiError 400 validation failures
(including mongoose schema validation on save), 404 not found, 401 not
authorized. -/
inductive Err where
  | validation : String → Err
  | notFound : Err
  | notAuthorized : Err
deriving DecidableEq, Repr

/-- Request body for add and update: each field optionally provided.
For amount, a provided 0 is falsy in JS and behaves like a missing field in
the truthiness checks of the source. -/
structure Body where
  amount : Option ℚ
  type : Option TxType
  category : Option String
  date : Option YMDate
  note : Option String
  mood : Option String
deriving DecidableEq, Repr

/-- Budget.findOne({user, month}): first budget matching the key. -/
def findBudget : List Budget → Nat → Month → Option Budget
  | [], _, _ => none
  | b :: bs, u, m => if b.user = u ∧ b.month = m then some b else findBudget bs u m

/-- In-place save of the first budget matching (user, month), as mongoose
findOne followed by mutation and save: apply f to the first match, keep the
rest unchanged.  When no budget matches, the list is unchanged (the budget
update branch of the controllers is simply skipped). -/
def mapFirstBudget (f : Budget → Budget) : List Budget → Nat → Month → List Budget
  | [], _, _ => []
  | b :: bs, u, m =>
    if b.user = u ∧ b.month = m then f b :: bs else b :: mapFirstBudget f bs u m

/-- Transaction.findById. -/
def findTxn : List Txn → Nat → Option Txn
  | [], _ => none
  | t :: ts, tid => if t.id = tid then some t else findTxn ts tid

/-- transaction.deleteOne(): remove the first transaction with the given id. -/
def eraseTxn : List Txn → Nat → List Txn
  | [], _ => []
  | t :: ts, tid => if t.id = tid then ts else t :: eraseTxn ts tid

/-- transaction.save() after in-place field mutation: replace the first
transaction with the given id by the updated document. -/
def replaceTxn (t' : Txn) : List Txn → Nat → List Txn
  | [], _ => []
  | t :: ts, tid => if t.id = tid then t' :: ts else t :: replaceTxn t' ts tid

/-- The negative-drift clamp from deleteTransaction and updateTransaction:
spentSoFar -= amount; if (spentSoFar < 0) spentSoFar = 0. -/
def clampSub (x a : ℚ) : ℚ := if x - a < 0 then 0 else x - a

/-- The forward delta of the Consistency Engine: when the transaction is an
expense, add its amount to the spentSoFar of the first aggregate matching
(user, month of its date); otherwise leave the aggregates alone.  This is the
budget-update block of addTransaction and step 3 of updateTransaction. -/
def applyBudgets (bs : List Budget) (u : Nat) (t : Txn) : List Budget :=
  if t.type = .expense then
    mapFirstBudget (fun bu => { bu with spentSoFar := bu.spentSoFar + t.amount })
      bs u (monthOf t.date)
  else bs

/-- The reverse delta of the Consistency Engine: when the transaction is an
expense, subtract its amount (clamped at zero) from the matching aggregate.
This is the revert block of deleteTransaction and step 1 of
updateTransaction. -/
def revertBudgets (bs : List Budget) (u : Nat) (t : Txn) : List Budget :=
  if t.type = .expense then
    mapFirstBudget (fun bu => { bu with spentSoFar := clampSub bu.spentSoFar t.amount })
      bs u (monthOf t.date)
  else bs

/-- addTransaction (transactionController): validate required fields and
amount > 0, create the transaction, and if it is an expense add its amount to
the budget aggregate of its month when one exists.  Returns the state after
the call together with the error, if any. -/
def addTransaction (s : St) (u : Nat) (b : Body) : St × Option Err :=
  -- if (!amount || !type || !category || !date) — a provided amount of 0 is falsy
  if b.amount = none ∨ b.amount = some 0 ∨ b.type = none ∨ b.category = none ∨
      b.category = some "" ∨ b.date = none then
    (s, some (.validation "Amount, type, category, and date are required"))
  else
    match b.amount, b.type, b.category, b.date with
    | some a, some ty, some c, some d =>
      if a ≤ 0 then (s, some (.validation "Amount must be greater than 0"))
      else
        let t : Txn := ⟨s.nextId, u, ty, c, a, d, b.note, b.mood⟩
        -- Rule 1: Update Budget Module Automatically
        (⟨s.txns ++ [t], applyBudgets s.budgets u t, s.nextId + 1⟩, none)
    | _, _, _, _ => (s, some (.validation "Amount, type, category, and date are required"))

/-- deleteTransaction (transactionController): 404 when absent, 401 when not
owned; for an expense, subtract its amount from the budget aggregate of its
month with the floor-at-zero clamp, then remove the transaction. -/
def deleteTransaction (s : St) (u : Nat) (tid : Nat) : St × Option Err :=
  match findTxn s.txns tid with
  | none => (s, some .notFound)
  | some t =>
    if t.user ≠ u then (s, some .notAuthorized)
    else
      -- Rule 1: Update Budget Module Automatically (Revert)
      (⟨eraseTxn s.txns tid, revertBudgets s.budgets u t, s.nextId⟩, none)

/-- The field merge of updateTransaction step 2: amount, type, category and
date use JS truthy-or (a provided 0 or empty string keeps the old value);
note and mood use an explicit undefined check. -/
def mergeTxn (t : Txn) (b : Body) : Txn :=
  { t with
    amount := match b.amount with
      | some a => if a = 0 then t.amount else a
      | none => t.amount
    type := b.type.getD t.type
    category := match b.category with
      | some c => if c = "" then t.category else c
      | none => t.category
    date := b.date.getD t.date
    note := match b.note with
      | some n => some n
      | none => t.note
    mood := match b.mood with
      | some mo => some mo
      | none => t.mood }

/-- updateTransaction (transactionController): 404 and 401 checks; step 1
reverts the old budget impact (clamped subtraction) when the old document was
an expense; step 2 merges the provided fields and saves the document, where
mongoose document validation rejects a non-positive amount — note that this
rejection happens after the step 1 budget write has already been saved; step 3
applies the new impact when the merged document is an expense. -/
def updateTransaction (s : St) (u : Nat) (tid : Nat) (b : Body) : St × Option Err :=
  match findTxn s.txns tid with
  | none => (s, some .notFound)
  | some t =>
    if t.user ≠ u then (s, some .notAuthorized)
    else
      -- 1. Revert Old Budget Impact (if it was an expense)
      let budgets1 := revertBudgets s.budgets u t
      -- 2. Update Transaction Fields, then transaction.save() which runs the
      -- schema validator: amount must be greater than 0
      let t' := mergeTxn t b
      if t'.amount ≤ 0 then
        (⟨s.txns, budgets1, s.nextId⟩, some (.validation "Amount must be greater than 0"))
      else
        -- 3. Apply New Budget Impact (if it is now an expense)
        (⟨replaceTxn t' s.txns tid, applyBudgets budgets1 u t', s.nextId⟩, none)

/-- A ledger mutation issued by an authenticated user. -/
inductive Op where
  | add : Nat → Body → Op
  | del : Nat → Nat → Op
  | upd : Nat → Nat → Body → Op
deriving DecidableEq, Repr

/-- Dispatch one operation. -/
def applyOp (s : St) : Op → St × Option Err
  | .add u b => addTransaction s u b
  | .del u tid => deleteTransaction s u tid
  | .upd u tid b => updateTransaction s u tid b

/-- Run a sequence of operations; each call leaves its (possibly partial)
state behind whether or not it errors, as independent HTTP requests do.  The
boolean records whether every call in the sequence succeeded. -/
def runOps (s : St) : List Op → St × Bool
  | [] => (s, true)
  | o :: os =>
    let r := applyOp s o
    let rest := runOps r.1 os
    (rest.1, r.2.isNone && rest.2)

/-- The contribution of one live transaction to the spent-so-far sum of the
aggregate keyed (u, m): its amount when it is an expense of that user dated
in that month, else zero. -/
def contrib (u : Nat) (m : Month) (t : Txn) : ℚ :=
  if t.user = u ∧ t.type = .expense ∧ monthOf t.date = m then t.amount else 0

/-- Sum of amount over the currently-live expense transactions of user u
dated in month m. -/
def monthSum (txns : List Txn) (u : Nat) (m : Month) : ℚ :=
  (txns.map (contrib u m)).sum

/-! ### Budget controller (budgetController.js) -/

/-- Gregorian leap year, as implemented by the JS Date machinery the
controllers delegate month-length computation to. -/
def isLeapYear (y : Int) : Bool :=
  (y % 4 == 0 && y % 100 != 0) || y % 400 == 0

/-- Number of days in a month: new Date(year, month, 0).getDate(). -/
def daysInMonth (y : Int) (m : Nat) : Nat :=
  if m = 2 then (if isLeapYear y then 29 else 28)
  else if m = 4 ∨ m = 6 ∨ m = 9 ∨ m = 11 then 30
  else 31

/-- Day-granularity order on calendar dates. -/
def dateLe (a b : YMDate) : Bool :=
  a.year < b.year ||
    (a.year == b.year && (a.month < b.month || (a.month == b.month && a.day ≤ b.day)))

/-- Membership of a date in the scan range of setBudget: between the first
day of the month (startDate) and its last day (endDate, whose 23:59:59.999
time component collapses at day granularity). -/
def inMonthRange (d : YMDate) (m : Month) : Bool :=
  dateLe ⟨m.1, m.2, 1⟩ d && dateLe d ⟨m.1, m.2, daysInMonth m.1 m.2⟩

/-- The full scan of setBudget: sum the amounts of the expense transactions
of this user dated in the month range. -/
def spentScan (txns : List Txn) (u : Nat) (m : Month) : ℚ :=
  ((txns.filter
    (fun t => t.user == u && t.type == TxType.expense && inMonthRange t.date m)).map
      (·.amount)).sum

/-- setBudget (budgetController): validate the provided limit, recompute
spentSoFar from a full scan of the current month expense transactions, then
either overwrite the existing aggregate (monthlyBudget and spentSoFar) or
create a fresh one. -/
def setBudget (s : St) (u : Nat) (monthlyBudget : Option ℚ) (now : YMDate) :
    St × Option Err :=
  -- if (!monthlyBudget || monthlyBudget <= 0)
  match monthlyBudget with
  | none => (s, some (.validation "Please provide a valid monthly budget greater than 0"))
  | some v =>
    if v ≤ 0 then
      (s, some (.validation "Please provide a valid monthly budget greater than 0"))
    else
      let m := monthOf now
      let spent := spentScan s.txns u m
      match findBudget s.budgets u m with
      | some _ =>
        (⟨s.txns,
          mapFirstBudget (fun bu => { bu with monthlyBudget := v, spentSoFar := spent })
            s.budgets u m,
          s.nextId⟩, none)
      | none =>
        (⟨s.txns, s.budgets ++ [⟨u, m, v, spent⟩], s.nextId⟩, none)

/-! ### AI controller (aiController.js): forecast, personality, challenges -/

/-- Math.round: floor of x + one half (exact JS semantics on finite inputs). -/
def jsRound (x : ℚ) : ℤ := ⌊x + 1/2⌋

/-- Step 4 of getForecast: dailyAverage = Math.round(totalExpenses / 30). -/
def dailyAverageOf (totalExpenses : ℚ) : ℤ := jsRound (totalExpenses / 30)

/-- Step 6 of getForecast: predicted end-of-month expenses. -/
def predictedExpenses (spentSoFar dailyAverage remainingDays : ℚ) : ℚ :=
  spentSoFar + dailyAverage * remainingDays

/-- Step 8 of getForecast: percentage of the monthly budget the prediction
amounts to. -/
def forecastPercentage (predicted monthlyBudget : ℚ) : ℚ :=
  predicted / monthlyBudget * 100

/-- Risk tier of getForecast (aiController lines 101 to 107): medium
threshold at 60. -/
def forecastRiskLevel (percentage : ℚ) : String :=
  if percentage > 100 then "high"
  else if percentage > 60 then "medium"
  else "low"

/-- Severity tier of the forecast insight in getAIInsights (dashboard
controller): medium threshold at 75. -/
def insightForecastSeverity (percentage : ℚ) : String :=
  if percentage > 100 then "high"
  else if percentage > 75 then "medium"
  else "low"

/-- Risk tier of getForecastRisk (alert controller helper): medium threshold
at 75, same convention as getAIInsights. -/
def getForecastRiskTier (pct : ℚ) : String :=
  if pct > 100 then "high"
  else if pct > 75 then "medium"
  else "low"

/-- Accumulate an amount onto a category key of an association list,
preserving first-seen key order, as JS object accumulation does. -/
def bump : List (String × ℚ) → String → ℚ → List (String × ℚ)
  | [], c, a => [(c, a)]
  | (k, v) :: rest, c, a =>
    if k = c then (k, v + a) :: rest else (k, v) :: bump rest c a

/-- categoryTotals: per-category expense totals in first-seen order. -/
def categoryTotals (txns : List Txn) : List (String × ℚ) :=
  txns.foldl (fun acc t => bump acc t.category t.amount) []

/-- Per-category rounded percentage of total spending, in key order
(Object.keys insertion order). -/
def categoryPercents (txns : List Txn) : List (String × ℤ) :=
  let totalSpending := (txns.map (·.amount)).sum
  (categoryTotals txns).map (fun kv => (kv.1, jsRound (kv.2 / totalSpending * 100)))

/-- The percentage of the top-spending category: the head of the
percentage-descending sort is an element of maximal percentage, so the
topCategory.percentage > 60 test of the source is the max-percentage test.
The false branch covers the JS topCategory undefined guard. -/
def topCategoryOver60 (categories : List (String × ℤ)) : Bool :=
  match (categories.map (·.2)).max? with
  | some p => 60 < p
  | none => false

/-- determinePersonality (aiController lines 269 to 322): the ordered
first-match-wins decision list over the 90-day expense window.  The caller
passes the current-month budget lookup result; no budget defaults the usage
to 100 to avoid false Saver detection.  getPersonality evaluates the same
conditions in the same order. -/
def determinePersonality (txns : List Txn) (currentBudget : Option Budget) :
    Option String :=
  if txns.length < 5 then none
  else
    let uniqueCategories := (txns.map (·.category)).eraseDups
    let highValueCount := (txns.filter (fun t => decide (2000 < t.amount))).length
    let txnsPerWeek : ℚ := txns.length / 12
    let categories := categoryPercents txns
    let budgetUsagePercent : ℚ :=
      match currentBudget with
      | some bu => bu.spentSoFar / bu.monthlyBudget * 100
      | none => 100
    if 5 < uniqueCategories.length ∧ 10 < txnsPerWeek then some "Impulsive Spender"
    else if (categories.find? (fun cp => cp.1 == "Food" && decide (30 < cp.2))).isSome then
      some "Foodie Spender"
    else if txnsPerWeek < 5 ∧ 2 < highValueCount then some "Occasional Big Spender"
    else if topCategoryOver60 categories then some "Category Loyalist"
    else if budgetUsagePercent < 50 ∧ txnsPerWeek < 5 then some "Saver"
    else some "Balanced Spender"

/-- A generated spending challenge record. -/
structure Challenge where
  id : Nat
  title : String
  description : String
  expectedSave : ℤ
  duration : String
  difficulty : String
  icon : String
  status : String
deriving DecidableEq, Repr

/-- A challenge template from the fixed repository. -/
structure ChTemplate where
  title : String
  desc : String
  icon : String
  duration : String
deriving DecidableEq, Repr

/-- challengePool.Food. -/
def foodPool : List ChTemplate :=
  [⟨"No Food Delivery Challenge", "Avoid ordering food delivery for 3 consecutive days", "🍕", "3 days"⟩,
   ⟨"Coffee at Home", "Make your own coffee instead of buying it for a week", "☕", "7 days"⟩,
   ⟨"Meal Prep Sunday", "Prep all your lunches for the week on Sunday", "🍱", "7 days"⟩]

/-- challengePool.Shopping. -/
def shoppingPool : List ChTemplate :=
  [⟨"No New Clothes", "Do not buy any new clothes for 2 weeks", "👗", "14 days"⟩,
   ⟨"24-Hour Rule", "Wait 24 hours before making any non-essential purchase", "⏳", "7 days"⟩]

/-- challengePool.Transport. -/
def transportPool : List ChTemplate :=
  [⟨"Walk More", "Walk for short trips instead of taking a cab", "🚶", "7 days"⟩,
   ⟨"Public Transport Week", "Use public transport instead of ride-hailing apps", "🚌", "7 days"⟩]

/-- challengePool.Entertainment. -/
def entertainmentPool : List ChTemplate :=
  [⟨"Free Fun Weekend", "Find free entertainment activities this weekend", "🎉", "2 days"⟩,
   ⟨"Entertainment Cap", "Keep entertainment spending under limit", "🎮", "7 days"⟩]

/-- challengePool.General. -/
def generalPool : List ChTemplate :=
  [⟨"Zero Spend Day", "Go a full day without spending a single rupee", "🚫", "1 day"⟩,
   ⟨"Savings Sprint", "Save 500 daily for 5 days", "💰", "5 days"⟩]

/-- The challengePool object lookup: undefined for a category without a
pool. -/
def challengePool : String → Option (List ChTemplate)
  | "Food" => some foodPool
  | "Shopping" => some shoppingPool
  | "Transport" => some transportPool
  | "Entertainment" => some entertainmentPool
  | "General" => some generalPool
  | _ => none

/-- Value of a key in the accumulated totals object (unique keys by
construction). -/
def lookupTotal (totals : List (String × ℚ)) (c : String) : ℚ :=
  match totals.find? (fun kv => kv.1 == c) with
  | some kv => kv.2
  | none => 0

/-- Stable insertion into an amount-descending list. -/
def insertDesc (x : String × ℚ) : List (String × ℚ) → List (String × ℚ)
  | [] => [x]
  | y :: ys => if y.2 < x.2 then x :: y :: ys else y :: insertDesc x ys

/-- Stable sort of the category totals by amount descending, as the JS
comparator (a, b) => b[1] - a[1]. -/
def sortByAmountDesc : List (String × ℚ) → List (String × ℚ)
  | [] => []
  | x :: xs => insertDesc x (sortByAmountDesc xs)

/-- Top three spending categories of the trailing-30-day window. -/
def topCategories (txns : List Txn) : List String :=
  ((sortByAmountDesc (categoryTotals txns)).take 3).map (·.1)

/-- Loop A of getChallenges: one challenge per top category that has a pool.
rand draws the random template index (taken modulo the pool size, as
Math.floor(Math.random() * length) always lands inside the pool); the
counters track the next random draw and the id counter.  Returns the
challenge list together with both counters. -/
def catLoop (totals : List (String × ℚ)) (rand : Nat → Nat) :
    List String → Nat → Nat → List Challenge × Nat × Nat
  | [], r, i => ([], r, i)
  | c :: rest, r, i =>
    match challengePool c with
    | none => catLoop totals rand rest r i
    | some pool =>
      let tmpl := pool.getD (rand r % pool.length) ⟨"", "", "", ""⟩
      let monthlySpend := lookupTotal totals c
      let e := jsRound (monthlySpend * 0.15 / 4)
      let expectedSave : ℤ := if e < 100 then 500 else e
      let res := catLoop totals rand rest (r + 1) (i + 1)
      (⟨i, tmpl.title, tmpl.desc, expectedSave, tmpl.duration, "Medium", tmpl.icon,
        "available"⟩ :: res.1, res.2)

/-- The category-driven part of getChallenges together with its counters. -/
def catResult (txns : List Txn) (rand : Nat → Nat) : List Challenge × Nat × Nat :=
  catLoop (categoryTotals txns) rand (topCategories txns) 0 1

/-- The category-driven challenges alone. -/
def categoryChallenges (txns : List Txn) (rand : Nat → Nat) : List Challenge :=
  (catResult txns rand).1

/-- getChallenges (aiController lines 615 to 771): category-driven
challenges from the top three 30-day spending categories, padded with one
random General challenge (fixed expectedSave 500) when fewer than two were
produced, and capped at three. -/
def getChallenges (txns : List Txn) (rand : Nat → Nat) : List Challenge :=
  let res := catResult txns rand
  let challenges := res.1
  let all :=
    if challenges.length < 2 then
      let tmpl := generalPool.getD (rand res.2.1 % generalPool.length) ⟨"", "", "", ""⟩
      challenges ++
        [⟨res.2.2, tmpl.title, tmpl.desc, 500, tmpl.duration, "Easy", tmpl.icon, "available"⟩]
    else challenges
  all.take 3

/-! ### Alert materializer (alertService.js) -/

/-- Persisted alert record from models/Alert.js, restricted to the metadata
fields the budget and trend generators write (the bill generator and its
metadata fields are not claimed here). -/
structure Alert where
  user : Nat
  type : String
  severity : String
  message : String
  metaBudgetUsage : Option ℤ
  metaMonth : Option Month
  metaCategory : Option String
  metaTrendPercentage : Option ℤ
  isRead : Bool
deriving DecidableEq, Repr

/-- The deleteMany filter of generateBudgetAlerts as the service writes it:
alerts of this user with type budget and metadata.month equal to the current
month.  The metadata.month path is not declared by the Alert schema, so the
filter is applied to stored documents as written (the strictQuery default of
mongoose 5, 7 and 8 leaves unknown filter paths in place) and a document
matches only if it actually carries that path with that value. -/
def isBudgetAlertFor (u : Nat) (m : Month) (a : Alert) : Prop :=
  a.user = u ∧ a.type = "budget" ∧ a.metaMonth = some m

instance (u : Nat) (m : Month) (a : Alert) : Decidable (isBudgetAlertFor u m a) := by
  unfold isBudgetAlertFor; infer_instance

/-- The single alert created by generateBudgetAlerts.  The service passes
metadata carrying budgetUsage and month, but the Alert schema declares only
budgetUsage (no metadata.month path), so mongoose strict mode drops the month
on save: the persisted document never carries it. -/
def mkBudgetAlert (u : Nat) (_m : Month) (sev msg : String) (usage : ℚ) : Alert :=
  ⟨u, "budget", sev, msg, some (jsRound usage), none, none, none, false⟩

/-- generateBudgetAlerts (alertService): no-op without an aggregate or with a
zero limit; otherwise run the deleteMany on the user, the budget type and the
(never persisted) metadata.month, then create at most one new alert according
to the usage thresholds (100 / 90 / 75 / 50).  Because no stored alert
carries metadata.month, the month-scoped delete removes nothing that this
service ever created.  (Under the mongoose 6 strictQuery default the unknown
path would instead be stripped from the filter, making the delete type-wide
rather than the month-scoped delete the service intends; either way the
schema omission breaks the written month-scoped replacement.) -/
def generateBudgetAlerts (alerts : List Alert) (budgets : List Budget) (u : Nat)
    (m : Month) : List Alert :=
  match findBudget budgets u m with
  | none => alerts
  | some bu =>
    if bu.monthlyBudget = 0 then alerts
    else
      let usage := bu.spentSoFar / bu.monthlyBudget * 100
      let kept := alerts.filter (fun a => decide (¬ isBudgetAlertFor u m a))
      if 100 ≤ usage then
        kept ++ [mkBudgetAlert u m "high"
          ("You have exceeded your monthly budget by " ++ toString (jsRound (usage - 100)) ++ "%.")
          usage]
      else if 90 ≤ usage then
        kept ++ [mkBudgetAlert u m "high"
          ("You have used " ++ toString (jsRound usage) ++ "% of your monthly budget.") usage]
      else if 75 ≤ usage then
        kept ++ [mkBudgetAlert u m "medium"
          ("You have used " ++ toString (jsRound usage) ++ "% of your monthly budget.") usage]
      else if 50 ≤ usage then
        kept ++ [mkBudgetAlert u m "low"
          ("You have used " ++ toString (jsRound usage) ++ "% of your monthly budget.") usage]
      else kept

/-- The lastWeekMap lookup with the fallback zero: the object is built by
in-order assignment, so a duplicated category keeps its last entry. -/
def lastWeekLookup (lastWeek : List (String × ℚ)) (c : String) : ℚ :=
  match lastWeek.reverse.find? (fun kv => kv.1 == c) with
  | some kv => kv.2
  | none => 0

/-- The trend alert created for a category whose increase passed the 20
percent bar; 50 percent and up is high severity. -/
def mkTrendAlert (u : Nat) (c : String) (pct : ℚ) : Alert :=
  ⟨u, "trend", if 50 ≤ pct then "high" else "medium",
   "Your " ++ c ++ " spending increased by " ++ toString (jsRound pct) ++ "% this week.",
   none, none, some c, some (jsRound pct), false⟩

/-- The per-category decision of the generateTrendAlerts loop: skip a zero
prior-week baseline, otherwise alert when the increase reaches 20 percent. -/
def trendDecision (u : Nat) (c : String) (thisWeekAmount lastWeekAmount : ℚ) :
    Option Alert :=
  if lastWeekAmount = 0 then none
  else
    let increasePercent := (thisWeekAmount - lastWeekAmount) / lastWeekAmount * 100
    if 20 ≤ increasePercent then some (mkTrendAlert u c increasePercent) else none

/-- generateTrendAlerts (alertService): the two weekly windows arrive as
per-category totals from the external aggregation; all prior trend alerts of
the user are deleted, then one alert is created per this-week category whose
increase over its nonzero prior-week baseline reaches 20 percent. -/
def generateTrendAlerts (alerts : List Alert) (u : Nat)
    (thisWeek lastWeek : List (String × ℚ)) : List Alert :=
  let kept := alerts.filter (fun a => !(a.user == u && a.type == "trend"))
  kept ++ thisWeek.filterMap (fun cv => trendDecision u cv.1 cv.2 (lastWeekLookup lastWeek cv.1))

/-! ### Concrete fixtures used by witnesses and counterexamples -/

/-- A live expense transaction of user 7, amount 10, dated 2025-01-05. -/
def exTxn : Txn := ⟨1, 7, .expense, "Food", 10, ⟨2025, 1, 5⟩, none, none⟩

/-- An aggregate for user 7 and 2025-01 in sync with the ledger. -/
def exBudget : Budget := ⟨7, (2025, 1), 100, 10⟩

/-- A store state whose aggregate equals the live expense sum. -/
def exSt : St := ⟨[exTxn], [exBudget], 2⟩

/-- A store state with downward drift: the aggregate holds 5 while the live
expense sum is 10. -/
def exDriftSt : St := ⟨[exTxn], [⟨7, (2025, 1), 100, 5⟩], 2⟩

/-- An update body providing a negative amount. -/
def bodyNeg : Body := ⟨some (-5), none, none, none, none, none⟩

/-- An update body providing amount zero. -/
def bodyZero : Body := ⟨some 0, none, none, none, none, none⟩

/-! ### Store primitive lemmas -/

theorem findBudget_cons (b : Budget) (bs : List Budget) (u : Nat) (m : Month) :
    findBudget (b :: bs) u m =
      if b.user = u ∧ b.month = m then some b else findBudget bs u m := rfl

theorem mapFirstBudget_cons (f : Budget → Budget) (b : Budget) (bs : List Budget)
    (u : Nat) (m : Month) :
    mapFirstBudget f (b :: bs) u m =
      if b.user = u ∧ b.month = m then f b :: bs else b :: mapFirstBudget f bs u m := rfl

theorem findBudget_mapFirst (f : Budget → Budget)
    (hkey : ∀ b, (f b).user = b.user ∧ (f b).month = b.month)
    (bs : List Budget) (u : Nat) (m : Month) :
    findBudget (mapFirstBudget f bs u m) u m = (findBudget bs u m).map f := by
  induction bs with
  | nil => rfl
  | cons b bs ih =>
    rw [mapFirstBudget_cons, findBudget_cons]
    by_cases h : b.user = u ∧ b.month = m
    · rw [if_pos h, if_pos h, findBudget_cons,
        if_pos (show (f b).user = u ∧ (f b).month = m by
          rw [(hkey b).1, (hkey b).2]; exact h)]
      rfl
    · rw [if_neg h, if_neg h, findBudget_cons, if_neg h]
      exact ih

theorem findBudget_mapFirst_ne (f : Budget → Budget)
    (hkey : ∀ b, (f b).user = b.user ∧ (f b).month = b.month)
    (u' : Nat) (m' : Month) (u : Nat) (m : Month) (hne : ¬(u' = u ∧ m' = m))
    (bs : List Budget) :
    findBudget (mapFirstBudget f bs u' m') u m = findBudget bs u m := by
  induction bs with
  | nil => rfl
  | cons b bs ih =>
    rw [mapFirstBudget_cons, findBudget_cons]
    by_cases h : b.user = u' ∧ b.month = m'
    · have hbm : ¬(b.user = u ∧ b.month = m) := by
        rintro ⟨h1, h2⟩
        exact hne ⟨by rw [← h.1, h1], by rw [← h.2, h2]⟩
      have hfb : ¬((f b).user = u ∧ (f b).month = m) := by
        rw [(hkey b).1, (hkey b).2]; exact hbm
      rw [if_pos h, findBudget_cons, if_neg hfb, if_neg hbm]
    · rw [if_neg h, findBudget_cons]
      by_cases hb : b.user = u ∧ b.month = m
      · rw [if_pos hb, if_pos hb]
      · rw [if_neg hb, if_neg hb]
        exact ih

theorem findBudget_append_of_none (bs : List Budget) (b : Budget) (u : Nat) (m : Month)
    (h : findBudget bs u m = none) :
    findBudget (bs ++ [b]) u m =
      if b.user = u ∧ b.month = m then some b else none := by
  induction bs with
  | nil => rfl
  | cons b0 bs ih =>
    unfold findBudget at h ⊢
    by_cases h0 : b0.user = u ∧ b0.month = m
    · rw [if_pos h0] at h; exact absurd h (by simp)
    · rw [if_neg h0] at h
      show findBudget (b0 :: (bs ++ [b])) u m = _
      unfold findBudget
      rw [if_neg h0]
      exact ih h

theorem findTxn_mem (ts : List Txn) (tid : Nat) (t : Txn)
    (h : findTxn ts tid = some t) : t ∈ ts := by
  induction ts with
  | nil => exact absurd h (by simp [findTxn])
  | cons t0 ts ih =>
    unfold findTxn at h
    by_cases h0 : t0.id = tid
    · rw [if_pos h0] at h
      injection h with h
      exact h ▸ List.mem_cons_self _ _
    · rw [if_neg h0] at h
      exact List.mem_cons_of_mem _ (ih h)

theorem eraseTxn_subset (ts : List Txn) (tid : Nat) (x : Txn)
    (h : x ∈ eraseTxn ts tid) : x ∈ ts := by
  induction ts with
  | nil => exact absurd h (by simp [eraseTxn])
  | cons t0 ts ih =>
    unfold eraseTxn at h
    by_cases h0 : t0.id = tid
    · rw [if_pos h0] at h
      exact List.mem_cons_of_mem _ h
    · rw [if_neg h0] at h
      rcases List.mem_cons.mp h with h | h
      · exact h ▸ List.mem_cons_self _ _
      · exact List.mem_cons_of_mem _ (ih h)

theorem replaceTxn_mem (t' : Txn) (ts : List Txn) (tid : Nat) (x : Txn)
    (h : x ∈ replaceTxn t' ts tid) : x ∈ ts ∨ x = t' := by
  induction ts with
  | nil => exact absurd h (by simp [replaceTxn])
  | cons t0 ts ih =>
    unfold replaceTxn at h
    by_cases h0 : t0.id = tid
    · rw [if_pos h0] at h
      rcases List.mem_cons.mp h with h | h
      · exact Or.inr h
      · exact Or.inl (List.mem_cons_of_mem _ h)
    · rw [if_neg h0] at h
      rcases List.mem_cons.mp h with h | h
      · exact Or.inl (h ▸ List.mem_cons_self _ _)
      · rcases ih h with h | h
        · exact Or.inl (List.mem_cons_of_mem _ h)
        · exact Or.inr h

/-! ### Month sum lemmas -/

theorem monthSum_nil (u : Nat) (m : Month) : monthSum [] u m = 0 := rfl

theorem monthSum_cons (t : Txn) (ts : List Txn) (u : Nat) (m : Month) :
    monthSum (t :: ts) u m = contrib u m t + monthSum ts u m := by
  simp [monthSum]

theorem monthSum_append_single (ts : List Txn) (t : Txn) (u : Nat) (m : Month) :
    monthSum (ts ++ [t]) u m = monthSum ts u m + contrib u m t := by
  simp [monthSum]

theorem monthSum_erase (ts : List Txn) (tid : Nat) (t : Txn) (u : Nat) (m : Month)
    (h : findTxn ts tid = some t) :
    monthSum (eraseTxn ts tid) u m = monthSum ts u m - contrib u m t := by
  induction ts with
  | nil => exact absurd h (by simp [findTxn])
  | cons t0 ts ih =>
    unfold findTxn at h
    by_cases h0 : t0.id = tid
    · rw [if_pos h0] at h
      injection h with h
      subst h
      unfold eraseTxn
      rw [if_pos h0, monthSum_cons]
      ring
    · rw [if_neg h0] at h
      unfold eraseTxn
      rw [if_neg h0, monthSum_cons, monthSum_cons, ih h]
      ring

theorem monthSum_replace (t' : Txn) (ts : List Txn) (tid : Nat) (t : Txn) (u : Nat)
    (m : Month) (h : findTxn ts tid = some t) :
    monthSum (replaceTxn t' ts tid) u m =
      monthSum ts u m - contrib u m t + contrib u m t' := by
  induction ts with
  | nil => exact absurd h (by simp [findTxn])
  | cons t0 ts ih =>
    unfold findTxn at h
    by_cases h0 : t0.id = tid
    · rw [if_pos h0] at h
      injection h with h
      subst h
      unfold replaceTxn
      rw [if_pos h0, monthSum_cons, monthSum_cons]
      ring
    · rw [if_neg h0] at h
      unfold replaceTxn
      rw [if_neg h0, monthSum_cons, monthSum_cons, ih h]
      ring

theorem contrib_nonneg (u : Nat) (m : Month) (t : Txn) (h : 0 < t.amount) :
    0 ≤ contrib u m t := by
  unfold contrib
  split
  · exact le_of_lt h
  · exact le_refl 0

theorem monthSum_nonneg (ts : List Txn) (u : Nat) (m : Month)
    (h : ∀ t ∈ ts, 0 < t.amount) : 0 ≤ monthSum ts u m := by
  induction ts with
  | nil => exact le_refl 0
  | cons t0 ts ih =>
    rw [monthSum_cons]
    have h1 := contrib_nonneg u m t0 (h t0 (List.mem_cons_self _ _))
    have h2 := ih (fun t ht => h t (List.mem_cons_of_mem _ ht))
    linarith

theorem contrib_le_monthSum (ts : List Txn) (tid : Nat) (t : Txn) (u : Nat) (m : Month)
    (hfind : findTxn ts tid = some t) (hpos : ∀ x ∈ ts, 0 < x.amount) :
    contrib u m t ≤ monthSum ts u m := by
  have h1 := monthSum_erase ts tid t u m hfind
  have h2 : 0 ≤ monthSum (eraseTxn ts tid) u m :=
    monthSum_nonneg _ u m (fun x hx => hpos x (eraseTxn_subset ts tid x hx))
  linarith

/-! ### C4: forecast values and risk tiers -/

/-- C4 counterexample: with monthlyBudget 10000, spentSoFar 6000,
dailyAverage 100 and remainingDays 10 the percentage is 70, and the claimed
tier assignment is wrong on both conventions: the 60-threshold site
(getForecast) yields medium, not low, and the 75-threshold sites yield low,
not medium. -/
theorem c4_risk_tier_counterexample :
    ¬ (forecastRiskLevel (forecastPercentage (predictedExpenses 6000 100 10) 10000) = "low" ∨
       getForecastRiskTier (forecastPercentage (predictedExpenses 6000 100 10) 10000) = "medium") := by
  have hp : forecastPercentage (predictedExpenses 6000 100 10) 10000 = 70 := by
    norm_num [predictedExpenses, forecastPercentage]
  rw [hp]
  unfold forecastRiskLevel getForecastRiskTier
  rw [if_neg (by norm_num), if_pos (by norm_num), if_neg (by norm_num),
    if_neg (by norm_num)]
  decide

/-- C4 amended: the forecast at monthlyBudget 10000, spentSoFar 6000,
dailyAverage 100, remainingDays 10 predicts 7000 and 70 percent; the tier is
medium under the 60-threshold convention of getForecast and low under the
75-threshold convention of getAIInsights and getForecastRisk, and the two
conventions coexist in the code (they disagree at this very input). -/
theorem c4_forecast_values :
    predictedExpenses 6000 100 10 = 7000 ∧
    forecastPercentage (predictedExpenses 6000 100 10) 10000 = 70 ∧
    forecastRiskLevel 70 = "medium" ∧
    insightForecastSeverity 70 = "low" ∧
    getForecastRiskTier 70 = "low" ∧
    forecastRiskLevel 70 ≠ getForecastRiskTier 70 := by
  have h1 : predictedExpenses 6000 100 10 = 7000 := by norm_num [predictedExpenses]
  have h2 : forecastPercentage (predictedExpenses 6000 100 10) 10000 = 70 := by
    norm_num [predictedExpenses, forecastPercentage]
  have h3 : forecastRiskLevel 70 = "medium" := by
    unfold forecastRiskLevel
    rw [if_neg (by norm_num), if_pos (by norm_num)]
  have h4 : insightForecastSeverity 70 = "low" := by
    unfold insightForecastSeverity
    rw [if_neg (by norm_num), if_neg (by norm_num)]
  have h5 : getForecastRiskTier 70 = "low" := by
    unfold getForecastRiskTier
    rw [if_neg (by norm_num), if_neg (by norm_num)]
  refine ⟨h1, h2, h3, h4, h5, ?_⟩
  rw [h3, h5]
  decide

/-! ### C6: personality decision list priority -/

/-- C6: any 90-day expense dataset with at least 5 transactions, more than 5
distinct categories and more than 10 transactions per week classifies as
Impulsive Spender: the first rule of the ordered decision list matches and
short-circuits every later rule, whatever the category shares are. -/
theorem c6_impulsive_priority (txns : List Txn) (bud : Option Budget)
    (hlen : 5 ≤ txns.length)
    (hcats : 5 < ((txns.map (·.category)).eraseDups).length)
    (hfreq : (10 : ℚ) < (txns.length : ℚ) / 12) :
    determinePersonality txns bud = some "Impulsive Spender" := by
  unfold determinePersonality
  rw [if_neg (by omega)]
  dsimp only
  rw [if_pos ⟨hcats, hfreq⟩]

/-- Six distinct category labels cycling with the transaction index. -/
def personaCat : Nat → String
  | 0 => "Food"
  | 1 => "Shopping"
  | 2 => "Transport"
  | 3 => "Rent"
  | 4 => "Fun"
  | _ => "Misc"

/-- One witness transaction; 40 percent of the spend lands on Food via
amounts, so the Foodie rule would also match were it evaluated. -/
def personaTxn (i : Nat) : Txn :=
  ⟨i, 7, .expense, personaCat (i % 6), if i % 6 = 0 then 4 else 1, ⟨2025, 1, 1⟩, none, none⟩

/-- 126 expense transactions over the window: 126 / 12 = 10.5 per week. -/
def personaTxns : List Txn := (List.range 126).map personaTxn

/-- C6 witness: the concrete 126-transaction dataset with 6 categories is
classified Impulsive Spender. -/
theorem c6_impulsive_witness :
    determinePersonality personaTxns none = some "Impulsive Spender" := by
  apply c6_impulsive_priority
  · simp [personaTxns]
  · decide
  · simp only [personaTxns, List.length_map, List.length_range]
    norm_num

/-! ### C8: trend alerts -/

theorem trendDecision_some {u : Nat} {c : String} {tw lw : ℚ} {a : Alert}
    (h : trendDecision u c tw lw = some a) :
    lw ≠ 0 ∧ a.metaCategory = some c ∧ a.type = "trend" ∧ a.user = u := by
  unfold trendDecision at h
  by_cases h0 : lw = 0
  · rw [if_pos h0] at h
    exact absurd h (by simp)
  · rw [if_neg h0] at h
    dsimp only at h
    refine ⟨h0, ?_⟩
    by_cases h1 : 20 ≤ (tw - lw) / lw * 100
    · rw [if_pos h1] at h
      injection h with h
      subst h
      exact ⟨rfl, rfl, rfl⟩
    · rw [if_neg h1] at h
      exact absurd h (by simp)

/-- C8: in trend-alert generation, a category present this week with total
1500 over a prior-week baseline of 1000 (a 50 percent increase) yields an
alert of severity high for that category; and no trend alert is ever created
for a category whose prior-week total is zero, whatever it spent this week. -/
theorem c8_trend_alerts (alerts : List Alert) (u : Nat)
    (thisWeek lastWeek : List (String × ℚ)) (c : String)
    (hmem : (c, (1500 : ℚ)) ∈ thisWeek)
    (hbase : lastWeekLookup lastWeek c = 1000) :
    (∃ a ∈ generateTrendAlerts alerts u thisWeek lastWeek,
        a.user = u ∧ a.type = "trend" ∧ a.metaCategory = some c ∧ a.severity = "high") ∧
    (∀ c0, lastWeekLookup lastWeek c0 = 0 →
      ∀ a ∈ generateTrendAlerts alerts u thisWeek lastWeek,
        ¬(a.user = u ∧ a.type = "trend" ∧ a.metaCategory = some c0)) := by
  constructor
  · refine ⟨mkTrendAlert u c 50, ?_, rfl, rfl, rfl, ?_⟩
    · unfold generateTrendAlerts
      refine List.mem_append_right _ (List.mem_filterMap.mpr ⟨(c, 1500), hmem, ?_⟩)
      show trendDecision u c 1500 (lastWeekLookup lastWeek c) = some (mkTrendAlert u c 50)
      rw [hbase]
      unfold trendDecision
      rw [if_neg (by norm_num)]
      dsimp only
      have hinc : ((1500 : ℚ) - 1000) / 1000 * 100 = 50 := by norm_num
      rw [hinc, if_pos (by norm_num)]
    · show (if (50 : ℚ) ≤ 50 then "high" else "medium") = "high"
      rw [if_pos (by norm_num)]
  · intro c0 h0 a ha hconj
    obtain ⟨hau, hat, hac⟩ := hconj
    unfold generateTrendAlerts at ha
    rcases List.mem_append.mp ha with hk | hf
    · have hp := (List.mem_filter.mp hk).2
      simp [hau, hat] at hp
    · obtain ⟨cv, _, hdec⟩ := List.mem_filterMap.mp hf
      obtain ⟨hne, hcat, _, _⟩ := trendDecision_some hdec
      have hcc : cv.1 = c0 := by
        rw [hac] at hcat
        injection hcat with h
        exact h.symm
      exact hne (hcc ▸ h0)

/-- C8 witness: the trend run with this week Food 1500 and X 700 over last
week Food 1000 and X 0 creates a high Food alert and nothing for X. -/
theorem c8_trend_witness :
    (∃ a ∈ generateTrendAlerts [] 7 [("Food", 1500), ("X", 700)] [("Food", 1000)],
        a.user = 7 ∧ a.type = "trend" ∧ a.metaCategory = some "Food" ∧ a.severity = "high") ∧
    (∀ c0, lastWeekLookup [("Food", (1000 : ℚ))] c0 = 0 →
      ∀ a ∈ generateTrendAlerts [] 7 [("Food", 1500), ("X", 700)] [("Food", 1000)],
        ¬(a.user = 7 ∧ a.type = "trend" ∧ a.metaCategory = some c0)) :=
  c8_trend_alerts [] 7 [("Food", 1500), ("X", 700)] [("Food", 1000)] "Food"
    (by simp) rfl

/-! ### C7: budget alert regeneration -/

/-- C7: the program evaluated at the failing input.  Against the unchanged
60-percent aggregate, each generateBudgetAlerts run still creates its alert,
but the month-scoped deleteMany matches nothing because the Alert schema
never persists metadata.month: after two runs the user holds two budget
alerts, not one, and zero stored alerts match the month-scoped filter the
service deletes by.  The claimed delete-then-create dedup is the evident
intent of the service (and of the spec), broken by the schema omission. -/
theorem c7_budget_alert_accumulates :
    ((generateBudgetAlerts (generateBudgetAlerts [] [⟨7, (2025, 1), 100, 60⟩] 7 (2025, 1))
        [⟨7, (2025, 1), 100, 60⟩] 7 (2025, 1)).filter
        (fun x => decide (x.user = 7 ∧ x.type = "budget"))).length = 2 ∧
    ((generateBudgetAlerts (generateBudgetAlerts [] [⟨7, (2025, 1), 100, 60⟩] 7 (2025, 1))
        [⟨7, (2025, 1), 100, 60⟩] 7 (2025, 1)).filter
        (fun x => decide (isBudgetAlertFor 7 (2025, 1) x))).length = 0 := by
  have hgen : ∀ alerts : List Alert,
      generateBudgetAlerts alerts [⟨7, (2025, 1), 100, 60⟩] 7 (2025, 1) =
        alerts.filter (fun a => decide (¬ isBudgetAlertFor 7 (2025, 1) a)) ++
          [mkBudgetAlert 7 (2025, 1) "low"
            ("You have used " ++ toString (jsRound ((60 : ℚ) / 100 * 100)) ++
              "% of your monthly budget.")
            ((60 : ℚ) / 100 * 100)] := by
    intro alerts
    unfold generateBudgetAlerts
    rw [show findBudget [⟨7, (2025, 1), 100, 60⟩] 7 (2025, 1) =
      some ⟨7, (2025, 1), 100, 60⟩ from rfl]
    dsimp only
    rw [if_neg (by norm_num), if_neg (by norm_num), if_neg (by norm_num),
      if_neg (by norm_num), if_pos (by norm_num)]
  rw [hgen, hgen]
  simp [mkBudgetAlert, isBudgetAlertFor, List.filter]

/-! ### C10: challenge generation bounds -/

theorem catLoop_length (totals : List (String × ℚ)) (rand : Nat → Nat)
    (cats : List String) : ∀ (r i : Nat),
    (catLoop totals rand cats r i).1.length ≤ cats.length := by
  induction cats with
  | nil =>
    intro r i
    simp [catLoop]
  | cons c rest ih =>
    intro r i
    unfold catLoop
    cases hc : challengePool c with
    | none =>
      dsimp only
      exact le_trans (ih r i) (Nat.le_succ _)
    | some pool =>
      dsimp only
      simpa [List.length_cons] using Nat.succ_le_succ (ih (r + 1) (i + 1))

theorem categoryChallenges_def (txns : List Txn) (rand : Nat → Nat) :
    categoryChallenges txns rand = (catResult txns rand).1 := rfl

theorem categoryChallenges_length_le (txns : List Txn) (rand : Nat → Nat) :
    (categoryChallenges txns rand).length ≤ 3 := by
  have h1 := catLoop_length (categoryTotals txns) rand (topCategories txns) 0 1
  have h2 : (topCategories txns).length ≤ 3 := by
    unfold topCategories
    rw [List.length_map]
    exact List.length_take_le _ _
  exact le_trans h1 h2

/-- C10: getChallenges never reports insufficient data and always returns
between one and three challenges: when fewer than two category-driven
challenges are produced it appends exactly one General-pool challenge with
expectedSave 500, so even an empty 30-day window yields one challenge, and
the list is capped at three. -/
theorem c10_challenge_count (txns : List Txn) (rand : Nat → Nat) :
    1 ≤ (getChallenges txns rand).length ∧ (getChallenges txns rand).length ≤ 3 ∧
    ((categoryChallenges txns rand).length < 2 →
      ∃ g, getChallenges txns rand = categoryChallenges txns rand ++ [g] ∧
        g.expectedSave = 500) := by
  have hle := categoryChallenges_length_le txns rand
  rw [categoryChallenges_def] at hle ⊢
  unfold getChallenges
  dsimp only
  by_cases h2 : (catResult txns rand).1.length < 2
  · rw [if_pos h2]
    rw [List.take_of_length_le
      (by simp only [List.length_append, List.length_singleton]; omega)]
    refine ⟨?_, ?_, fun _ => ⟨_, rfl, rfl⟩⟩
    · simp only [List.length_append, List.length_singleton]
      omega
    · simp only [List.length_append, List.length_singleton]
      omega
  · rw [if_neg h2]
    have hlen : ((catResult txns rand).1.take 3).length = (catResult txns rand).1.length := by
      rw [List.length_take]
      omega
    exact ⟨by omega, by omega, fun hcon => absurd hcon h2⟩

/-- C10 witness: an empty 30-day window yields exactly one General challenge
with expectedSave 500. -/
theorem c10_challenge_witness :
    ∃ g, getChallenges [] (fun _ => 0) = [g] ∧ g.expectedSave = 500 := by
  obtain ⟨g, hg, hs⟩ := (c10_challenge_count [] (fun _ => 0)).2.2 (by decide)
  refine ⟨g, ?_, hs⟩
  rw [hg]
  rfl

/-! ### C3: budget set resynchronizes spentSoFar from a full scan -/

/-- C3: after a successful budget-set for the current month, the aggregate
found for (user, current month) carries exactly the provided limit and a
spentSoFar equal to the full scan of the month expense transactions, in both
the update-existing and create-new branches, independently of any value the
aggregate held before. -/
theorem c3_setBudget_resync (s : St) (u : Nat) (v : ℚ) (now : YMDate)
    (hv : 0 < v) :
    ∃ bu, findBudget ((setBudget s u (some v) now).1).budgets u (monthOf now) = some bu ∧
      bu.monthlyBudget = v ∧
      bu.spentSoFar = spentScan s.txns u (monthOf now) ∧
      (setBudget s u (some v) now).2 = none := by
  unfold setBudget
  dsimp only
  rw [if_neg (not_le.mpr hv)]
  cases hf : findBudget s.budgets u (monthOf now) with
  | some b0 =>
    dsimp only
    rw [findBudget_mapFirst
      (fun bu => { bu with monthlyBudget := v, spentSoFar := spentScan s.txns u (monthOf now) })
      (fun b => ⟨rfl, rfl⟩) s.budgets u (monthOf now), hf]
    exact ⟨_, rfl, rfl, rfl, rfl⟩
  | none =>
    dsimp only
    have happ := findBudget_append_of_none s.budgets
      ⟨u, monthOf now, v, spentScan s.txns u (monthOf now)⟩ u (monthOf now) hf
    rw [if_pos ⟨rfl, rfl⟩] at happ
    rw [happ]
    exact ⟨_, rfl, rfl, rfl, rfl⟩

/-- C3 witness: setting a budget of 50 for user 7 on 2025-01-20 over the
fixture state succeeds and stores the scanned spend. -/
theorem c3_setBudget_witness :
    ∃ bu, findBudget ((setBudget exSt 7 (some 50) ⟨2025, 1, 20⟩).1).budgets 7
        (monthOf ⟨2025, 1, 20⟩) = some bu ∧
      bu.monthlyBudget = 50 ∧
      bu.spentSoFar = spentScan exSt.txns 7 (monthOf ⟨2025, 1, 20⟩) ∧
      (setBudget exSt 7 (some 50) ⟨2025, 1, 20⟩).2 = none :=
  c3_setBudget_resync exSt 7 50 ⟨2025, 1, 20⟩ (by norm_num)

/-! ### C9: spentSoFar stays non-negative -/

theorem mapFirst_spent_nonneg (f : Budget → Budget)
    (hf : ∀ b, 0 ≤ b.spentSoFar → 0 ≤ (f b).spentSoFar)
    (bs : List Budget) (u : Nat) (m : Month)
    (h : ∀ b ∈ bs, 0 ≤ b.spentSoFar) :
    ∀ b ∈ mapFirstBudget f bs u m, 0 ≤ b.spentSoFar := by
  induction bs with
  | nil => intro b hb; exact absurd hb (by simp [mapFirstBudget])
  | cons b0 bs ih =>
    intro b hb
    rw [mapFirstBudget_cons] at hb
    by_cases h0 : b0.user = u ∧ b0.month = m
    · rw [if_pos h0] at hb
      rcases List.mem_cons.mp hb with hb | hb
      · exact hb ▸ hf b0 (h b0 (List.mem_cons_self _ _))
      · exact h b (List.mem_cons_of_mem _ hb)
    · rw [if_neg h0] at hb
      rcases List.mem_cons.mp hb with hb | hb
      · exact hb ▸ h b0 (List.mem_cons_self _ _)
      · exact ih (fun x hx => h x (List.mem_cons_of_mem _ hx)) b hb

theorem clampSub_nonneg (x a : ℚ) : 0 ≤ clampSub x a := by
  unfold clampSub
  split
  · exact le_refl 0
  · linarith [not_lt.mp (by assumption)]

theorem revertBudgets_spent_nonneg (bs : List Budget) (u : Nat) (t : Txn)
    (h : ∀ b ∈ bs, 0 ≤ b.spentSoFar) :
    ∀ b ∈ revertBudgets bs u t, 0 ≤ b.spentSoFar := by
  unfold revertBudgets
  split
  · exact mapFirst_spent_nonneg
      (fun bu => { bu with spentSoFar := clampSub bu.spentSoFar t.amount })
      (fun b0 _ => clampSub_nonneg b0.spentSoFar t.amount) bs u (monthOf t.date) h
  · exact h

theorem applyBudgets_spent_nonneg (bs : List Budget) (u : Nat) (t : Txn)
    (hpos : 0 < t.amount) (h : ∀ b ∈ bs, 0 ≤ b.spentSoFar) :
    ∀ b ∈ applyBudgets bs u t, 0 ≤ b.spentSoFar := by
  unfold applyBudgets
  split
  · exact mapFirst_spent_nonneg
      (fun bu => { bu with spentSoFar := bu.spentSoFar + t.amount })
      (fun b0 hb0 => by dsimp only; linarith) bs u (monthOf t.date) h
  · exact h

/-- C9: the floor-at-zero clamp makes the delete-time subtraction
max 0 (x - a), and every Consistency Engine operation (add, edit or delete,
whether it succeeds or errors part-way) preserves non-negativity of
spentSoFar across all stored aggregates. -/
theorem c9_spent_nonneg (s : St) (o : Op)
    (h : ∀ b ∈ s.budgets, 0 ≤ b.spentSoFar) :
    (∀ x a : ℚ, clampSub x a = max 0 (x - a)) ∧
    ∀ b ∈ ((applyOp s o).1).budgets, 0 ≤ b.spentSoFar := by
  constructor
  · intro x a
    unfold clampSub
    split
    · exact (max_eq_left (le_of_lt (by assumption))).symm
    · exact (max_eq_right (not_lt.mp (by assumption))).symm
  cases o with
  | add u b =>
    show ∀ x ∈ ((addTransaction s u b).1).budgets, 0 ≤ x.spentSoFar
    unfold addTransaction
    split
    · exact h
    · split
      · rename_i a ty c d h1 h2 h3 h4
        by_cases ha : a ≤ 0
        · rw [if_pos ha]
          exact h
        · rw [if_neg ha]
          dsimp only
          exact applyBudgets_spent_nonneg s.budgets u
            ⟨s.nextId, u, ty, c, a, d, b.note, b.mood⟩ (lt_of_not_le ha) h
      · exact h
  | del u tid =>
    show ∀ x ∈ ((deleteTransaction s u tid).1).budgets, 0 ≤ x.spentSoFar
    unfold deleteTransaction
    split
    · exact h
    · rename_i t ht
      by_cases hu : t.user ≠ u
      · rw [if_pos hu]
        exact h
      · rw [if_neg hu]
        exact revertBudgets_spent_nonneg s.budgets u t h
  | upd u tid b =>
    show ∀ x ∈ ((updateTransaction s u tid b).1).budgets, 0 ≤ x.spentSoFar
    unfold updateTransaction
    split
    · exact h
    · rename_i t ht
      by_cases hu : t.user ≠ u
      · rw [if_pos hu]
        exact h
      · rw [if_neg hu]
        dsimp only
        have h1 := revertBudgets_spent_nonneg s.budgets u t h
        by_cases hval : (mergeTxn t b).amount ≤ 0
        · rw [if_pos hval]
          exact h1
        · rw [if_neg hval]
          exact applyBudgets_spent_nonneg _ u _ (lt_of_not_le hval) h1

/-! ### C1 infrastructure: the ledger-aggregate synchronization invariant -/

/-- Every live transaction has a positive amount, as the schema validator
enforces on each create and save. -/
def AmountsPos (s : St) : Prop := ∀ t ∈ s.txns, 0 < t.amount

/-- The aggregate stored for (u, m), when one exists, equals the sum of the
live expense transactions of that user dated in that month. -/
def SyncedAt (s : St) (u : Nat) (m : Month) : Prop :=
  ∀ b, findBudget s.budgets u m = some b → b.spentSoFar = monthSum s.txns u m

theorem contrib_eq_amount (u : Nat) (m : Month) (t : Txn)
    (h1 : t.user = u) (h2 : t.type = .expense) (h3 : monthOf t.date = m) :
    contrib u m t = t.amount := by
  unfold contrib
  exact if_pos ⟨h1, h2, h3⟩

theorem contrib_eq_zero (u : Nat) (m : Month) (t : Txn)
    (h : ¬(t.user = u ∧ t.type = .expense ∧ monthOf t.date = m)) :
    contrib u m t = 0 := by
  unfold contrib
  exact if_neg h

theorem findBudget_applyBudgets (bs : List Budget) (ua : Nat) (t : Txn)
    (u : Nat) (m : Month) :
    findBudget (applyBudgets bs ua t) u m =
      if t.type = .expense ∧ ua = u ∧ monthOf t.date = m then
        (findBudget bs u m).map
          (fun bu => { bu with spentSoFar := bu.spentSoFar + t.amount })
      else findBudget bs u m := by
  unfold applyBudgets
  by_cases hty : t.type = .expense
  · rw [if_pos hty]
    by_cases hk : ua = u ∧ monthOf t.date = m
    · obtain ⟨h1, h2⟩ := hk
      subst h1
      rw [h2, findBudget_mapFirst
        (fun bu => { bu with spentSoFar := bu.spentSoFar + t.amount })
        (fun b => ⟨rfl, rfl⟩) bs ua m, if_pos ⟨hty, rfl, rfl⟩]
    · rw [if_neg (fun hc => hk ⟨hc.2.1, hc.2.2⟩),
        findBudget_mapFirst_ne
          (fun bu => { bu with spentSoFar := bu.spentSoFar + t.amount })
          (fun b => ⟨rfl, rfl⟩) ua (monthOf t.date) u m hk bs]
  · rw [if_neg hty, if_neg (fun hc => hty hc.1)]

theorem findBudget_revertBudgets (bs : List Budget) (ua : Nat) (t : Txn)
    (u : Nat) (m : Month) :
    findBudget (revertBudgets bs ua t) u m =
      if t.type = .expense ∧ ua = u ∧ monthOf t.date = m then
        (findBudget bs u m).map
          (fun bu => { bu with spentSoFar := clampSub bu.spentSoFar t.amount })
      else findBudget bs u m := by
  unfold revertBudgets
  by_cases hty : t.type = .expense
  · rw [if_pos hty]
    by_cases hk : ua = u ∧ monthOf t.date = m
    · obtain ⟨h1, h2⟩ := hk
      subst h1
      rw [h2, findBudget_mapFirst
        (fun bu => { bu with spentSoFar := clampSub bu.spentSoFar t.amount })
        (fun b => ⟨rfl, rfl⟩) bs ua m, if_pos ⟨hty, rfl, rfl⟩]
    · rw [if_neg (fun hc => hk ⟨hc.2.1, hc.2.2⟩),
        findBudget_mapFirst_ne
          (fun bu => { bu with spentSoFar := clampSub bu.spentSoFar t.amount })
          (fun b => ⟨rfl, rfl⟩) ua (monthOf t.date) u m hk bs]
  · rw [if_neg hty, if_neg (fun hc => hty hc.1)]

/-- The reduced form of a validation-rejected add: the request is missing a
required field or provides a falsy amount, category or date. -/
theorem addTransaction_req_err (s : St) (ua : Nat) (b : Body)
    (hreq : b.amount = none ∨ b.amount = some 0 ∨ b.type = none ∨
      b.category = none ∨ b.category = some "" ∨ b.date = none) :
    addTransaction s ua b =
      (s, some (.validation "Amount, type, category, and date are required")) := by
  unfold addTransaction
  rw [if_pos hreq]

/-- The reduced form of an add rejected by the non-positive amount guard. -/
theorem addTransaction_amount_err (s : St) (ua : Nat) (b : Body) (a : ℚ)
    (ty : TxType) (c : String) (d : YMDate)
    (hba : b.amount = some a) (hbt : b.type = some ty) (hbc : b.category = some c)
    (hbd : b.date = some d) (ha0 : a ≠ 0) (hc0 : c ≠ "") (hneg : a ≤ 0) :
    addTransaction s ua b = (s, some (.validation "Amount must be greater than 0")) := by
  unfold addTransaction
  rw [if_neg (by simp [hba, hbt, hbc, hbd, ha0, hc0]), hba, hbt, hbc, hbd]
  dsimp only
  rw [if_pos hneg]

/-- The reduced form of a successful add. -/
theorem addTransaction_success (s : St) (ua : Nat) (b : Body) (a : ℚ)
    (ty : TxType) (c : String) (d : YMDate)
    (hba : b.amount = some a) (hbt : b.type = some ty) (hbc : b.category = some c)
    (hbd : b.date = some d) (ha0 : a ≠ 0) (hc0 : c ≠ "") (hpos : ¬ a ≤ 0) :
    addTransaction s ua b =
      (⟨s.txns ++ [⟨s.nextId, ua, ty, c, a, d, b.note, b.mood⟩],
        applyBudgets s.budgets ua ⟨s.nextId, ua, ty, c, a, d, b.note, b.mood⟩,
        s.nextId + 1⟩, none) := by
  unfold addTransaction
  rw [if_neg (by simp [hba, hbt, hbc, hbd, ha0, hc0]), hba, hbt, hbc, hbd]
  dsimp only
  rw [if_neg hpos]

/-- The reduced form of a successful delete. -/
theorem deleteTransaction_success (s : St) (ua tid : Nat) (t : Txn)
    (hft : findTxn s.txns tid = some t) (hu : t.user = ua) :
    deleteTransaction s ua tid =
      (⟨eraseTxn s.txns tid, revertBudgets s.budgets ua t, s.nextId⟩, none) := by
  unfold deleteTransaction
  rw [hft]
  dsimp only
  rw [if_neg (fun h => h hu)]

/-- The reduced form of an update rejected at save time: the merged amount is
non-positive, the document is left unwritten, but the step 1 revert of the
old budget impact has already been persisted. -/
theorem updateTransaction_valerr (s : St) (ua tid : Nat) (b : Body) (t : Txn)
    (hft : findTxn s.txns tid = some t) (hu : t.user = ua)
    (hval : (mergeTxn t b).amount ≤ 0) :
    updateTransaction s ua tid b =
      (⟨s.txns, revertBudgets s.budgets ua t, s.nextId⟩,
        some (.validation "Amount must be greater than 0")) := by
  unfold updateTransaction
  rw [hft]
  dsimp only
  rw [if_neg (fun h => h hu), if_pos hval]

/-- The reduced form of a successful update. -/
theorem updateTransaction_success (s : St) (ua tid : Nat) (b : Body) (t : Txn)
    (hft : findTxn s.txns tid = some t) (hu : t.user = ua)
    (hval : ¬ (mergeTxn t b).amount ≤ 0) :
    updateTransaction s ua tid b =
      (⟨replaceTxn (mergeTxn t b) s.txns tid,
        applyBudgets (revertBudgets s.budgets ua t) ua (mergeTxn t b),
        s.nextId⟩, none) := by
  unfold updateTransaction
  rw [hft]
  dsimp only
  rw [if_neg (fun h => h hu), if_neg hval]

theorem add_preserves (s : St) (ua : Nat) (b : Body) (u : Nat) (m : Month)
    (hwf : AmountsPos s) (hsync : SyncedAt s u m)
    (hok : (addTransaction s ua b).2 = none) :
    AmountsPos (addTransaction s ua b).1 ∧ SyncedAt (addTransaction s ua b).1 u m := by
  by_cases hreq : b.amount = none ∨ b.amount = some 0 ∨ b.type = none ∨
      b.category = none ∨ b.category = some "" ∨ b.date = none
  · rw [addTransaction_req_err s ua b hreq] at hok
    exact absurd hok (by simp)
  · simp only [not_or] at hreq
    obtain ⟨h1, h2, h3, h4, h5, h6⟩ := hreq
    cases hba : b.amount with
    | none => exact absurd hba h1
    | some a =>
    cases hbt : b.type with
    | none => exact absurd hbt h3
    | some ty =>
    cases hbc : b.category with
    | none => exact absurd hbc h4
    | some c =>
    cases hbd : b.date with
    | none => exact absurd hbd h6
    | some d =>
    have ha0 : a ≠ 0 := fun h => h2 (by rw [hba, h])
    have hc0 : c ≠ "" := fun h => h5 (by rw [hbc, h])
    by_cases hneg : a ≤ 0
    · rw [addTransaction_amount_err s ua b a ty c d hba hbt hbc hbd ha0 hc0 hneg] at hok
      exact absurd hok (by simp)
    · rw [addTransaction_success s ua b a ty c d hba hbt hbc hbd ha0 hc0 hneg]
      constructor
      · intro x hx
        rcases List.mem_append.mp hx with hx | hx
        · exact hwf x hx
        · rcases List.mem_singleton.mp hx with rfl
          exact lt_of_not_le hneg
      · intro bb hfind
        dsimp only at hfind ⊢
        rw [monthSum_append_single]
        rw [findBudget_applyBudgets] at hfind
        by_cases hcond : (⟨s.nextId, ua, ty, c, a, d, b.note, b.mood⟩ : Txn).type = .expense ∧
            ua = u ∧ monthOf (⟨s.nextId, ua, ty, c, a, d, b.note, b.mood⟩ : Txn).date = m
        · rw [if_pos hcond] at hfind
          obtain ⟨b0, hb0, rfl⟩ := Option.map_eq_some'.mp hfind
          have hs := hsync b0 hb0
          have hcontrib := contrib_eq_amount u m
            (⟨s.nextId, ua, ty, c, a, d, b.note, b.mood⟩ : Txn)
            hcond.2.1 hcond.1 hcond.2.2
          show b0.spentSoFar + a = monthSum s.txns u m + contrib u m _
          rw [hs, hcontrib]
        · rw [if_neg hcond] at hfind
          have hcontrib := contrib_eq_zero u m
            (⟨s.nextId, ua, ty, c, a, d, b.note, b.mood⟩ : Txn)
            (fun hc => hcond ⟨hc.2.1, hc.1, hc.2.2⟩)
          rw [hsync bb hfind, hcontrib, add_zero]

theorem del_preserves (s : St) (ua tid : Nat) (u : Nat) (m : Month)
    (hwf : AmountsPos s) (hsync : SyncedAt s u m)
    (hok : (deleteTransaction s ua tid).2 = none) :
    AmountsPos (deleteTransaction s ua tid).1 ∧
      SyncedAt (deleteTransaction s ua tid).1 u m := by
  cases hft : findTxn s.txns tid with
  | none =>
    unfold deleteTransaction at hok
    rw [hft] at hok
    exact absurd hok (by simp)
  | some t =>
    by_cases hu : t.user = ua
    case neg =>
      unfold deleteTransaction at hok
      rw [hft] at hok
      dsimp only at hok
      rw [if_pos hu] at hok
      exact absurd hok (by simp)
    case pos =>
      rw [deleteTransaction_success s ua tid t hft hu]
      constructor
      · intro x hx
        exact hwf x (eraseTxn_subset s.txns tid x hx)
      · intro bb hfind
        dsimp only at hfind ⊢
        rw [monthSum_erase s.txns tid t u m hft]
        rw [findBudget_revertBudgets] at hfind
        by_cases hcond : t.type = .expense ∧ ua = u ∧ monthOf t.date = m
        · rw [if_pos hcond] at hfind
          obtain ⟨b0, hb0, rfl⟩ := Option.map_eq_some'.mp hfind
          have hs := hsync b0 hb0
          have hcontrib := contrib_eq_amount u m t (hu.trans hcond.2.1) hcond.1 hcond.2.2
          have hle : t.amount ≤ b0.spentSoFar := by
            rw [hs, ← hcontrib]
            exact contrib_le_monthSum s.txns tid t u m hft hwf
          show clampSub b0.spentSoFar t.amount = monthSum s.txns u m - contrib u m t
          unfold clampSub
          rw [if_neg (by linarith), hs, hcontrib]
        · rw [if_neg hcond] at hfind
          have hcontrib := contrib_eq_zero u m t
            (fun hc => hcond ⟨hc.2.1, hu.symm.trans hc.1, hc.2.2⟩)
          rw [hsync bb hfind, hcontrib, sub_zero]

theorem upd_preserves (s : St) (ua tid : Nat) (b : Body) (u : Nat) (m : Month)
    (hwf : AmountsPos s) (hsync : SyncedAt s u m)
    (hok : (updateTransaction s ua tid b).2 = none) :
    AmountsPos (updateTransaction s ua tid b).1 ∧
      SyncedAt (updateTransaction s ua tid b).1 u m := by
  cases hft : findTxn s.txns tid with
  | none =>
    unfold updateTransaction at hok
    rw [hft] at hok
    exact absurd hok (by simp)
  | some t =>
    by_cases hu : t.user = ua
    case neg =>
      unfold updateTransaction at hok
      rw [hft] at hok
      dsimp only at hok
      rw [if_pos hu] at hok
      exact absurd hok (by simp)
    case pos =>
      by_cases hval : (mergeTxn t b).amount ≤ 0
      · rw [updateTransaction_valerr s ua tid b t hft hu hval] at hok
        exact absurd hok (by simp)
      · rw [updateTransaction_success s ua tid b t hft hu hval]
        have humerge : (mergeTxn t b).user = ua := hu
        constructor
        · intro x hx
          rcases replaceTxn_mem (mergeTxn t b) s.txns tid x hx with hx | rfl
          · exact hwf x hx
          · exact lt_of_not_le hval
        · intro bb hfind
          dsimp only at hfind ⊢
          rw [monthSum_replace (mergeTxn t b) s.txns tid t u m hft]
          rw [findBudget_applyBudgets] at hfind
          by_cases hcnew : (mergeTxn t b).type = .expense ∧ ua = u ∧
              monthOf (mergeTxn t b).date = m
          · rw [if_pos hcnew, findBudget_revertBudgets] at hfind
            have hcn := contrib_eq_amount u m (mergeTxn t b)
              (humerge.trans hcnew.2.1) hcnew.1 hcnew.2.2
            by_cases hcold : t.type = .expense ∧ ua = u ∧ monthOf t.date = m
            · rw [if_pos hcold] at hfind
              obtain ⟨b1, hb1, rfl⟩ := Option.map_eq_some'.mp hfind
              obtain ⟨b0, hb0, rfl⟩ := Option.map_eq_some'.mp hb1
              have hs := hsync b0 hb0
              have hco := contrib_eq_amount u m t (hu.trans hcold.2.1) hcold.1 hcold.2.2
              have hle : t.amount ≤ b0.spentSoFar := by
                rw [hs, ← hco]
                exact contrib_le_monthSum s.txns tid t u m hft hwf
              show clampSub b0.spentSoFar t.amount + (mergeTxn t b).amount =
                monthSum s.txns u m - contrib u m t + contrib u m (mergeTxn t b)
              unfold clampSub
              rw [if_neg (by linarith), hs, hco, hcn]
            · rw [if_neg hcold] at hfind
              obtain ⟨b0, hb0, rfl⟩ := Option.map_eq_some'.mp hfind
              have hs := hsync b0 hb0
              have hco := contrib_eq_zero u m t
                (fun hc => hcold ⟨hc.2.1, hu.symm.trans hc.1, hc.2.2⟩)
              show b0.spentSoFar + (mergeTxn t b).amount =
                monthSum s.txns u m - contrib u m t + contrib u m (mergeTxn t b)
              rw [hs, hco, hcn, sub_zero]
          · rw [if_neg hcnew, findBudget_revertBudgets] at hfind
            have hcn := contrib_eq_zero u m (mergeTxn t b)
              (fun hc => hcnew ⟨hc.2.1, humerge.symm.trans hc.1, hc.2.2⟩)
            by_cases hcold : t.type = .expense ∧ ua = u ∧ monthOf t.date = m
            · rw [if_pos hcold] at hfind
              obtain ⟨b0, hb0, rfl⟩ := Option.map_eq_some'.mp hfind
              have hs := hsync b0 hb0
              have hco := contrib_eq_amount u m t (hu.trans hcold.2.1) hcold.1 hcold.2.2
              have hle : t.amount ≤ b0.spentSoFar := by
                rw [hs, ← hco]
                exact contrib_le_monthSum s.txns tid t u m hft hwf
              show clampSub b0.spentSoFar t.amount =
                monthSum s.txns u m - contrib u m t + contrib u m (mergeTxn t b)
              unfold clampSub
              rw [if_neg (by linarith), hs, hco, hcn, add_zero]
            · rw [if_neg hcold] at hfind
              have hs := hsync bb hfind
              have hco := contrib_eq_zero u m t
                (fun hc => hcold ⟨hc.2.1, hu.symm.trans hc.1, hc.2.2⟩)
              rw [hs, hco, hcn, sub_zero, add_zero]

theorem applyOp_preserves (s : St) (o : Op) (u : Nat) (m : Month)
    (hwf : AmountsPos s) (hsync : SyncedAt s u m)
    (hok : (applyOp s o).2 = none) :
    AmountsPos (applyOp s o).1 ∧ SyncedAt (applyOp s o).1 u m := by
  cases o with
  | add ua b => exact add_preserves s ua b u m hwf hsync hok
  | del ua tid => exact del_preserves s ua tid u m hwf hsync hok
  | upd ua tid b => exact upd_preserves s ua tid b u m hwf hsync hok

theorem runOps_preserves (ops : List Op) (u : Nat) (m : Month) :
    ∀ s : St, AmountsPos s → SyncedAt s u m → (runOps s ops).2 = true →
      AmountsPos (runOps s ops).1 ∧ SyncedAt (runOps s ops).1 u m := by
  induction ops with
  | nil => exact fun s hwf hsync _ => ⟨hwf, hsync⟩
  | cons o os ih =>
    intro s hwf hsync hok
    have hsplit : (applyOp s o).2 = none ∧ (runOps (applyOp s o).1 os).2 = true := by
      have h := hok
      unfold runOps at h
      dsimp only at h
      rw [Bool.and_eq_true, Option.isNone_iff_eq_none] at h
      exact h
    have hstep := applyOp_preserves s o u m hwf hsync hsplit.1
    exact ih (applyOp s o).1 hstep.1 hstep.2 hsplit.2

/-- C9 witness: deleting the only expense transaction of the fixture state
keeps every stored spentSoFar non-negative. -/
theorem c9_spent_nonneg_witness :
    (∀ x a : ℚ, clampSub x a = max 0 (x - a)) ∧
    ∀ b ∈ ((applyOp exSt (.del 7 1)).1).budgets, 0 ≤ b.spentSoFar :=
  c9_spent_nonneg exSt (.del 7 1)
    (by
      intro b hb
      simp only [exSt, exBudget] at hb
      rcases List.mem_singleton.mp hb with rfl
      norm_num)

/-! ### C1: the synchronization invariant under operation sequences -/

/-- C1 amended: starting from a state whose stored amounts are positive and
whose aggregate for (u, m), when present, equals the live expense sum of that
month, every race-free sequence of add, edit and delete operations in which
each call completes without error leaves the aggregate equal to the live
expense sum, clamped at zero.  (Unrestricted to error-free sequences the
statement is false: a rejected edit persists its step 1 revert, see the
counterexample.) -/
theorem c1_consistency_invariant (s : St) (u : Nat) (m : Month) (ops : List Op)
    (hwf : AmountsPos s) (hsync : SyncedAt s u m)
    (hok : (runOps s ops).2 = true) :
    ∀ b, findBudget ((runOps s ops).1).budgets u m = some b →
      b.spentSoFar = max 0 (monthSum ((runOps s ops).1).txns u m) := by
  obtain ⟨hwf2, hsync2⟩ := runOps_preserves ops u m s hwf hsync hok
  intro b hb
  rw [hsync2 b hb, max_eq_right (monthSum_nonneg _ u m hwf2)]

/-- A successful add of a second expense followed by deleting the first. -/
def c1ops : List Op :=
  [.add 7 ⟨some 3, some .expense, some "Fun", some ⟨2025, 1, 9⟩, none, none⟩,
   .del 7 1]

/-- C1 witness: running the concrete error-free sequence (add an expense of
3, then delete the original expense of 10) over the in-sync fixture state
leaves the aggregate holding (10 + 3) - 10, the clamped live sum. -/
theorem c1_consistency_witness :
    findBudget ((runOps exSt c1ops).1).budgets 7 (2025, 1) =
        some ⟨7, (2025, 1), 100, clampSub (10 + 3) 10⟩ ∧
    (⟨7, (2025, 1), 100, clampSub (10 + 3) 10⟩ : Budget).spentSoFar =
        max 0 (monthSum ((runOps exSt c1ops).1).txns 7 (2025, 1)) :=
  ⟨rfl,
   c1_consistency_invariant exSt 7 (2025, 1) c1ops
    (by
      intro t ht
      rcases List.mem_singleton.mp ht with rfl
      norm_num [exTxn])
    (by
      intro b hb
      have hb' : exBudget = b := by
        simpa [exSt, findBudget, exBudget] using hb
      rw [← hb']
      show (10 : ℚ) = monthSum [exTxn] 7 (2025, 1)
      simp [monthSum, contrib, exTxn, monthOf])
    (by decide)
    ⟨7, (2025, 1), 100, clampSub (10 + 3) 10⟩ rfl⟩

/-- C1 counterexample: over the in-sync fixture state, the sequence holding a
single edit that provides amount -5 is rejected at save time, yet its step 1
revert has already zeroed the aggregate while the live expense sum is still
10; so the invariant does not survive sequences that include rejected
operations. -/
theorem c1_counterexample :
    ¬ (∀ (s : St) (u : Nat) (m : Month) (ops : List Op),
        AmountsPos s → SyncedAt s u m →
        ∀ b, findBudget ((runOps s ops).1).budgets u m = some b →
          b.spentSoFar = max 0 (monthSum ((runOps s ops).1).txns u m)) := by
  intro hclaim
  have hb : findBudget ((runOps exSt [.upd 7 1 bodyNeg]).1).budgets 7 (2025, 1) =
      some ⟨7, (2025, 1), 100, clampSub 10 10⟩ := rfl
  have hcontra := hclaim exSt 7 (2025, 1) [.upd 7 1 bodyNeg]
    (by
      intro t ht
      rcases List.mem_singleton.mp ht with rfl
      norm_num [exTxn])
    (by
      intro b hb0
      have hb' : exBudget = b := by
        simpa [exSt, findBudget, exBudget] using hb0
      rw [← hb']
      show (10 : ℚ) = monthSum [exTxn] 7 (2025, 1)
      simp [monthSum, contrib, exTxn, monthOf])
    ⟨7, (2025, 1), 100, clampSub 10 10⟩ hb
  have hms : monthSum ((runOps exSt [.upd 7 1 bodyNeg]).1).txns 7 (2025, 1) = 10 := by
    show monthSum [exTxn] 7 (2025, 1) = 10
    simp [monthSum, contrib, exTxn, monthOf]
  rw [hms] at hcontra
  have hcs : clampSub 10 10 = 0 := by norm_num [clampSub]
  rw [hcs, max_eq_right (by norm_num : (0 : ℚ) ≤ 10)] at hcontra
  exact absurd hcontra (by norm_num)

/-! ### C2: amount-only edits move the aggregate by the delta -/

/-- C2 amended: editing only the amount of an expense transaction, with a
positive new amount and an aggregate whose spentSoFar is at least the old
amount (no clamping drift), changes spentSoFar by exactly newAmount minus
oldAmount.  (Without the no-drift hypothesis the clamp in the revert step
absorbs part of the delta, see the counterexample.) -/
theorem c2_amount_edit (s : St) (u tid : Nat) (t : Txn) (b0 : Budget) (a2 : ℚ)
    (hft : findTxn s.txns tid = some t)
    (hu : t.user = u)
    (hexp : t.type = .expense)
    (hbud : findBudget s.budgets u (monthOf t.date) = some b0)
    (hge : t.amount ≤ b0.spentSoFar)
    (ha : 0 < a2) :
    ∃ b1, findBudget
        ((updateTransaction s u tid ⟨some a2, none, none, none, none, none⟩).1).budgets
        u (monthOf t.date) = some b1 ∧
      b1.spentSoFar = b0.spentSoFar + (a2 - t.amount) := by
  have hm : mergeTxn t ⟨some a2, none, none, none, none, none⟩ =
      { t with amount := a2 } := by
    simp [mergeTxn, ne_of_gt ha]
  have hval : ¬ (mergeTxn t ⟨some a2, none, none, none, none, none⟩).amount ≤ 0 := by
    rw [hm]
    exact not_le.mpr ha
  rw [updateTransaction_success s u tid _ t hft hu hval, hm]
  dsimp only
  rw [findBudget_applyBudgets,
    if_pos (show ({ t with amount := a2 } : Txn).type = .expense ∧ u = u ∧
      monthOf ({ t with amount := a2 } : Txn).date = monthOf t.date from ⟨hexp, rfl, rfl⟩),
    findBudget_revertBudgets, if_pos ⟨hexp, rfl, rfl⟩, hbud]
  simp only [Option.map_some']
  refine ⟨_, rfl, ?_⟩
  show clampSub b0.spentSoFar t.amount + a2 = b0.spentSoFar + (a2 - t.amount)
  unfold clampSub
  rw [if_neg (by linarith)]
  ring

/-- C2 witness: editing the fixture expense from 10 to 20 moves the in-sync
aggregate from 10 to 20, a change of exactly 20 - 10. -/
theorem c2_amount_edit_witness :
    ∃ b1, findBudget
        ((updateTransaction exSt 7 1 ⟨some 20, none, none, none, none, none⟩).1).budgets
        7 (monthOf exTxn.date) = some b1 ∧
      b1.spentSoFar = exBudget.spentSoFar + (20 - exTxn.amount) :=
  c2_amount_edit exSt 7 1 exTxn exBudget 20 rfl rfl rfl rfl
    (by norm_num [exTxn, exBudget]) (by norm_num)

/-- C2 counterexample: over the drifted state whose aggregate holds 5 while
the transaction amount is 10, editing the amount to 20 yields spentSoFar
clampSub 5 10 + 20 = 20, not 5 + (20 - 10) = 15: the claim fails without the
no-drift hypothesis. -/
theorem c2_counterexample :
    ¬ (∀ (s : St) (u tid : Nat) (t : Txn) (b0 : Budget) (a2 : ℚ),
        findTxn s.txns tid = some t → t.user = u → t.type = .expense →
        findBudget s.budgets u (monthOf t.date) = some b0 → 0 < a2 →
        ∃ b1, findBudget
            ((updateTransaction s u tid ⟨some a2, none, none, none, none, none⟩).1).budgets
            u (monthOf t.date) = some b1 ∧
          b1.spentSoFar = b0.spentSoFar + (a2 - t.amount)) := by
  intro hclaim
  obtain ⟨b1, hb1, hs⟩ := hclaim exDriftSt 7 1 exTxn ⟨7, (2025, 1), 100, 5⟩ 20
    rfl rfl rfl rfl (by norm_num)
  have heval : findBudget
      ((updateTransaction exDriftSt 7 1 ⟨some 20, none, none, none, none, none⟩).1).budgets
      7 (monthOf exTxn.date) = some ⟨7, (2025, 1), 100, clampSub 5 10 + 20⟩ := rfl
  rw [heval] at hb1
  injection hb1 with hb1
  rw [← hb1] at hs
  have hs' : clampSub 5 10 + 20 = (5 : ℚ) + (20 - 10) := hs
  norm_num [clampSub] at hs'

/-! ### C5: validation of non-positive amounts -/

/-- C5 amended: a non-positive amount on an add is rejected before any write
with no partial effect; on an edit, a provided negative amount is rejected
only by document validation at save time, leaving the ledger unchanged but
after the step 1 aggregate revert has been persisted, and a provided amount
of zero is treated as a missing field, so the edit is not rejected at all and
keeps the old amount. -/
theorem c5_validation (s : St) (u : Nat) :
    (∀ b a, b.amount = some a → a ≤ 0 →
      (addTransaction s u b).1 = s ∧
      ∃ msg, (addTransaction s u b).2 = some (.validation msg)) ∧
    (∀ tid b a t, b.amount = some a → a < 0 →
      findTxn s.txns tid = some t → t.user = u →
      (∃ msg, (updateTransaction s u tid b).2 = some (.validation msg)) ∧
      ((updateTransaction s u tid b).1).txns = s.txns) ∧
    (∀ tid t, findTxn s.txns tid = some t → t.user = u → 0 < t.amount →
      (updateTransaction s u tid ⟨some 0, none, none, none, none, none⟩).2 = none) := by
  refine ⟨?_, ?_, ?_⟩
  · intro b a hba hle
    by_cases hreq : b.amount = none ∨ b.amount = some 0 ∨ b.type = none ∨
        b.category = none ∨ b.category = some "" ∨ b.date = none
    · rw [addTransaction_req_err s u b hreq]
      exact ⟨rfl, _, rfl⟩
    · simp only [not_or] at hreq
      obtain ⟨h1, h2, h3, h4, h5, h6⟩ := hreq
      cases hbt : b.type with
      | none => exact absurd hbt h3
      | some ty =>
      cases hbc : b.category with
      | none => exact absurd hbc h4
      | some c =>
      cases hbd : b.date with
      | none => exact absurd hbd h6
      | some d =>
      have ha0 : a ≠ 0 := fun h => h2 (by rw [hba, h])
      have hc0 : c ≠ "" := fun h => h5 (by rw [hbc, h])
      rw [addTransaction_amount_err s u b a ty c d hba hbt hbc hbd ha0 hc0 hle]
      exact ⟨rfl, _, rfl⟩
  · intro tid b a t hba hneg hft hu
    have hm : (mergeTxn t b).amount = a := by
      simp [mergeTxn, hba, ne_of_lt hneg]
    have hval : (mergeTxn t b).amount ≤ 0 := by
      rw [hm]
      exact le_of_lt hneg
    rw [updateTransaction_valerr s u tid b t hft hu hval]
    exact ⟨⟨_, rfl⟩, rfl⟩
  · intro tid t hft hu htpos
    have hm : (mergeTxn t ⟨some 0, none, none, none, none, none⟩).amount = t.amount := by
      simp [mergeTxn]
    have hval : ¬ (mergeTxn t ⟨some 0, none, none, none, none, none⟩).amount ≤ 0 := by
      rw [hm]
      exact not_le.mpr htpos
    rw [updateTransaction_success s u tid _ t hft hu hval]

/-- C5 witness: over the fixture state, adding with amount -5 is rejected and
leaves the state whole, editing to -5 is rejected with the ledger unchanged,
and editing to 0 is not rejected. -/
theorem c5_validation_witness :
    ((addTransaction exSt 7 bodyNeg).1 = exSt ∧
      ∃ msg, (addTransaction exSt 7 bodyNeg).2 = some (.validation msg)) ∧
    ((∃ msg, (updateTransaction exSt 7 1 bodyNeg).2 = some (.validation msg)) ∧
      ((updateTransaction exSt 7 1 bodyNeg).1).txns = exSt.txns) ∧
    (updateTransaction exSt 7 1 bodyZero).2 = none :=
  ⟨(c5_validation exSt 7).1 bodyNeg (-5) rfl (by norm_num),
   (c5_validation exSt 7).2.1 1 bodyNeg (-5) exTxn rfl (by norm_num) rfl rfl,
   (c5_validation exSt 7).2.2 1 exTxn rfl rfl (by norm_num [exTxn])⟩

/-- C5 counterexample: the negative-amount edit over the in-sync fixture
state is rejected, yet the aggregate has been modified by the time the
rejection fires (its spentSoFar is zeroed), and the zero-amount edit is not
rejected at all — both contradicting rejection before any write with no
partial effect. -/
theorem c5_counterexample :
    (updateTransaction exSt 7 1 bodyNeg).2 ≠ none ∧
    ((updateTransaction exSt 7 1 bodyNeg).1).budgets ≠ exSt.budgets ∧
    (updateTransaction exSt 7 1 bodyZero).2 = none := by
  have hvalneg : (mergeTxn exTxn bodyNeg).amount ≤ 0 := by
    norm_num [mergeTxn, bodyNeg, exTxn]
  have hshape := updateTransaction_valerr exSt 7 1 bodyNeg exTxn rfl rfl hvalneg
  have hvalzero : ¬ (mergeTxn exTxn bodyZero).amount ≤ 0 := by
    norm_num [mergeTxn, bodyZero, exTxn]
  refine ⟨by rw [hshape]; simp, ?_, by
    rw [updateTransaction_success exSt 7 1 bodyZero exTxn rfl rfl hvalzero]⟩
  rw [hshape]
  intro heq
  have heq' : revertBudgets exSt.budgets 7 exTxn = [exBudget] := heq
  have hrb : revertBudgets exSt.budgets 7 exTxn =
      [⟨7, (2025, 1), 100, clampSub 10 10⟩] := rfl
  rw [hrb] at heq'
  have : clampSub 10 10 = (10 : ℚ) := by
    injection heq' with h1 h2
    injection h1
  norm_num [clampSub] at this

end Spendify
